import Mathlib

/-!
Verification of the batch image converter / watermarker core.

The development shallowly embeds the compositing pipeline
(`services/imageProcessor.ts`: `extractImagesFromZip`, `processImage`,
`packageZip`) and the batch orchestrator (`App.tsx`: `processFiles`,
`startProcessing`).  Pixel dimensions are natural numbers, all derived
geometry is exact rational arithmetic (the source computes with JS
doubles; every quantity the claims mention is reached by a handful of
exact +,-,*,/ steps on small integers, where doubles and rationals
agree).  Canvas drawing is modelled as a trace of draw operations;
fallible platform steps (canvas context acquisition, blob encoding,
watermark image loading) are explicit boolean / `Except` parameters.
-/

namespace Toolbox

/-- Output formats, from the `ImageFormat` enum in `types.ts`.  The enum
values are the mime strings `image/jpeg`, `image/png`, `image/webp`. -/
inductive ImageFormat
| jpg
| png
| webp
deriving DecidableEq

/-- Mime string of a format (the enum value in `types.ts`). -/
def ImageFormat.mime : ImageFormat → String
| .jpg => "image/jpeg"
| .png => "image/png"
| .webp => "image/webp"

/-- File extension used for output names.  The source computes
`config.format.split('/')[1]`; evaluated on the three mime constants
this yields the strings below. -/
def ImageFormat.mimeExt : ImageFormat → String
| .jpg => "jpeg"
| .png => "png"
| .webp => "webp"

/-- Watermark anchor, from `WatermarkPosition` in `types.ts`. -/
inductive WatermarkPosition
| center
| topLeft
| topRight
| bottomLeft
| bottomRight
| custom
deriving DecidableEq

/-- Watermark layout mode, from `WatermarkMode` in `types.ts`. -/
inductive WatermarkMode
| single
| dual
| triple
| tiled
deriving DecidableEq

/-- Watermark color filter, from `WatermarkColorMode` in `types.ts`. -/
inductive WatermarkColorMode
| original
| grayscale
deriving DecidableEq

/-- The `ProcessingConfig` record from `types.ts`.  `width`/`height` are
naturals (the UI feeds them through `parseInt` and `Math.max(1, ...)`),
the remaining numeric fields are rationals. -/
structure ProcessingConfig where
  keepOriginalSize : Bool
  aspectRatio : String
  width : Nat
  height : Nat
  format : ImageFormat
  quality : ℚ
  fillBackground : Bool
  watermarkEnabled : Bool
  watermarkImageUrl : Option String
  watermarkOpacity : ℚ
  watermarkScale : ℚ
  watermarkRotation : ℚ
  watermarkPosition : WatermarkPosition
  watermarkMode : WatermarkMode
  watermarkColorMode : WatermarkColorMode
  customX : ℚ
  customY : ℚ
deriving DecidableEq

/-- A decoded raster: an image with known pixel dimensions
(`HTMLImageElement.width`/`.height`). -/
structure Raster where
  width : Nat
  height : Nat
deriving DecidableEq

/-- JS truthiness of `config.watermarkImageUrl` (a `string | null`):
`null` and the empty string are falsy. -/
def urlTruthy : Option String → Bool
| none => false
| some s => s ≠ ""

/-- The background-fill condition of `processImage`
(`imageProcessor.ts` line 200):
`config.format === ImageFormat.JPG || config.fillBackground`. -/
def shouldFillBackground (cfg : ProcessingConfig) : Bool :=
  (cfg.format == ImageFormat.jpg) || cfg.fillBackground

/-- Output canvas width (`imageProcessor.ts` lines 202-211): the raster
width when `keepOriginalSize`, else `config.width`. -/
def canvasW (img : Raster) (cfg : ProcessingConfig) : ℚ :=
  if cfg.keepOriginalSize then (img.width : ℚ) else (cfg.width : ℚ)

/-- Output canvas height, as `canvasW`. -/
def canvasH (img : Raster) (cfg : ProcessingConfig) : ℚ :=
  if cfg.keepOriginalSize then (img.height : ℚ) else (cfg.height : ℚ)

/-- Placement rectangle for the base image. -/
structure DrawRect where
  offsetX : ℚ
  offsetY : ℚ
  drawWidth : ℚ
  drawHeight : ℚ
deriving DecidableEq

/-- Base draw geometry when `keepOriginalSize` is false
(`imageProcessor.ts` lines 219-232): compares source and destination
aspect ratios; the wider-than-target source fits the width and is
centered vertically, otherwise it fits the height and is centered
horizontally. -/
def baseDrawRect (img : Raster) (cfg : ProcessingConfig) : DrawRect :=
  if (img.width : ℚ) / (img.height : ℚ) > (cfg.width : ℚ) / (cfg.height : ℚ) then
    { drawWidth := (cfg.width : ℚ),
      drawHeight := (img.height : ℚ) * ((cfg.width : ℚ) / (img.width : ℚ)),
      offsetX := 0,
      offsetY := ((cfg.height : ℚ) - (img.height : ℚ) * ((cfg.width : ℚ) / (img.width : ℚ))) / 2 }
  else
    { drawHeight := (cfg.height : ℚ),
      drawWidth := (img.width : ℚ) * ((cfg.height : ℚ) / (img.height : ℚ)),
      offsetX := ((cfg.width : ℚ) - (img.width : ℚ) * ((cfg.height : ℚ) / (img.height : ℚ))) / 2,
      offsetY := 0 }

/-- Watermark rendered width (`imageProcessor.ts` line 248):
`canvas.width * (config.watermarkScale / 100)`. -/
def wmTargetW (cw : ℚ) (cfg : ProcessingConfig) : ℚ :=
  cw * (cfg.watermarkScale / 100)

/-- Watermark rendered height (`imageProcessor.ts` lines 247-249):
`targetWmWidth / (wmImg.width / wmImg.height)`. -/
def wmTargetH (cw : ℚ) (cfg : ProcessingConfig) (wmW wmH : ℚ) : ℚ :=
  wmTargetW cw cfg / (wmW / wmH)

/-- Corner padding (`imageProcessor.ts` line 250):
`Math.max(canvas.width, canvas.height) * 0.03`. -/
def wmPadding (cw ch : ℚ) : ℚ :=
  max cw ch * (3 / 100)

/-- Horizontal tiling step (`imageProcessor.ts` line 265):
`targetWmWidth * 1.5`. -/
def wmStepX (cw : ℚ) (cfg : ProcessingConfig) : ℚ :=
  wmTargetW cw cfg * (3 / 2)

/-- Vertical tiling step (`imageProcessor.ts` line 266):
`targetWmHeight * 1.5`. -/
def wmStepY (cw : ℚ) (cfg : ProcessingConfig) (wmW wmH : ℚ) : ℚ :=
  wmTargetH cw cfg wmW wmH * (3 / 2)

/-- Number of iterations of the loop
`for (v = -step; v < limit + step; v += step)` for `step > 0`: the
iterates are `-step + k*step` and the loop stops at the least `k` with
`-step + k*step >= limit + step`, i.e. `k >= limit/step + 2`. -/
def tiledCount (limit step : ℚ) : ℕ :=
  Nat.ceil (limit / step + 2)

/-- One placement of the tiled grid at column `k`, row `j`
(`imageProcessor.ts` lines 269-274): the loop variables are
`x = -stepX + k*stepX` and `y = -stepY + j*stepY`, and even rows
(as counted by `Math.floor((y + stepY) / stepY) % 2 === 0`) are shifted
right by half a step. -/
def tiledPlacement (stepX stepY : ℚ) (k j : ℕ) : ℚ × ℚ :=
  let x : ℚ := -stepX + (k : ℚ) * stepX
  let y : ℚ := -stepY + (j : ℚ) * stepY
  let rowOffset : ℚ := if ⌊(y + stepY) / stepY⌋ % 2 = 0 then stepX / 2 else 0
  (x + rowOffset, y)

/-- All placements of the tiled grid, in loop order (outer loop over x,
inner loop over y; `imageProcessor.ts` lines 269-275). -/
def tiledPlacements (limitW limitH stepX stepY : ℚ) : List (ℚ × ℚ) :=
  (List.range (tiledCount limitW stepX)).flatMap (fun k =>
    (List.range (tiledCount limitH stepY)).map (fun j =>
      tiledPlacement stepX stepY k j))

/-- Watermark placement centers on a `cw × ch` canvas for a watermark
source of dimensions `wmW × wmH` (`imageProcessor.ts` lines 262-303). -/
def wmPositions (cw ch : ℚ) (cfg : ProcessingConfig) (wmW wmH : ℚ) : List (ℚ × ℚ) :=
  let halfW : ℚ := wmTargetW cw cfg / 2
  let halfH : ℚ := wmTargetH cw cfg wmW wmH / 2
  let padding : ℚ := wmPadding cw ch
  match cfg.watermarkMode with
  | WatermarkMode.tiled =>
      tiledPlacements cw ch (wmStepX cw cfg) (wmStepY cw cfg wmW wmH)
  | WatermarkMode.single =>
      match cfg.watermarkPosition with
      | WatermarkPosition.custom => [((cfg.customX / 100) * cw, (cfg.customY / 100) * ch)]
      | WatermarkPosition.center => [(cw / 2, ch / 2)]
      | WatermarkPosition.topLeft => [(padding + halfW, padding + halfH)]
      | WatermarkPosition.topRight => [(cw - padding - halfW, padding + halfH)]
      | WatermarkPosition.bottomLeft => [(padding + halfW, ch - padding - halfH)]
      | WatermarkPosition.bottomRight => [(cw - padding - halfW, ch - padding - halfH)]
  | WatermarkMode.dual =>
      [(padding + halfW, padding + halfH),
       (cw - padding - halfW, ch - padding - halfH)]
  | WatermarkMode.triple =>
      [(padding + halfW, padding + halfH),
       (cw / 2, ch / 2),
       (cw - padding - halfW, ch - padding - halfH)]

/-- One drawing operation performed on the output canvas. -/
inductive Op
| fillWhite (w h : ℚ)
| drawBase (offsetX offsetY w h : ℚ)
| drawWatermark (cx cy w h rotation opacity : ℚ) (grayscale : Bool)
deriving DecidableEq

/-- Recognizer for the white background fill. -/
def Op.isFillWhite : Op → Bool
| .fillWhite _ _ => true
| _ => false

/-- The output canvas: its dimensions and the trace of draw calls. -/
structure Canvas where
  width : ℚ
  height : ℚ
  ops : List Op
deriving DecidableEq

/-- Background fill operations (`imageProcessor.ts` lines 205-208 and
215-218): a white `fillRect` over the whole canvas when
`shouldFillBackground`, nothing otherwise. -/
def backgroundOps (img : Raster) (cfg : ProcessingConfig) : List Op :=
  if shouldFillBackground cfg then [Op.fillWhite (canvasW img cfg) (canvasH img cfg)] else []

/-- Base image draw (`imageProcessor.ts` lines 209 and 233): at native
size when `keepOriginalSize`, else at the letterbox rectangle. -/
def baseOps (img : Raster) (cfg : ProcessingConfig) : List Op :=
  if cfg.keepOriginalSize then
    [Op.drawBase 0 0 (img.width : ℚ) (img.height : ℚ)]
  else
    [Op.drawBase (baseDrawRect img cfg).offsetX (baseDrawRect img cfg).offsetY
      (baseDrawRect img cfg).drawWidth (baseDrawRect img cfg).drawHeight]

/-- Watermark overlay draws (`imageProcessor.ts` lines 236-308).  The
whole watermark block runs only when `watermarkEnabled` and the source
url is truthy, and is wrapped in a `try`/`catch` that logs and swallows
any failure; `wmRes` is the outcome of that block's fallible part
(loading/drawing the watermark image): on `error` no overlay operation
is performed. -/
def watermarkOps (img : Raster) (cfg : ProcessingConfig) (wmRes : Except Unit Raster) : List Op :=
  if cfg.watermarkEnabled && urlTruthy cfg.watermarkImageUrl then
    match wmRes with
    | Except.ok wm =>
        (wmPositions (canvasW img cfg) (canvasH img cfg) cfg (wm.width : ℚ) (wm.height : ℚ)).map
          (fun p => Op.drawWatermark p.1 p.2
            (wmTargetW (canvasW img cfg) cfg)
            (wmTargetH (canvasW img cfg) cfg (wm.width : ℚ) (wm.height : ℚ))
            cfg.watermarkRotation cfg.watermarkOpacity
            (cfg.watermarkColorMode == WatermarkColorMode.grayscale))
    | Except.error _ => []
  else []

/-- The fully drawn output canvas of `processImage`. -/
def renderCanvas (img : Raster) (cfg : ProcessingConfig) (wmRes : Except Unit Raster) : Canvas :=
  { width := canvasW img cfg,
    height := canvasH img cfg,
    ops := backgroundOps img cfg ++ baseOps img cfg ++ watermarkOps img cfg wmRes }

/-- Failures of `processImage` that abort the conversion. -/
inductive ProcError
| noContext
| encodeFailed
deriving DecidableEq

/-- The `processImage` pipeline (`imageProcessor.ts` lines 191-320):
throws when no 2d context is available (`ctxOk = false`), draws the
canvas, and rejects when `canvas.toBlob` yields no blob
(`encodeOk = false`); the encoded blob is identified with the drawn
canvas. -/
def processImage (img : Raster) (cfg : ProcessingConfig) (ctxOk : Bool)
    (wmRes : Except Unit Raster) (encodeOk : Bool) : Except ProcError Canvas :=
  if ctxOk then
    if encodeOk then Except.ok (renderCanvas img cfg wmRes)
    else Except.error ProcError.encodeFailed
  else Except.error ProcError.noContext

/-- Boolean test that a character list ends with a given pattern. -/
def endsWithChars (l pat : List Char) : Bool :=
  l.reverse.take pat.length == pat.reverse

/-- Case-insensitive image-extension test, the regex
`/\.(jpg|jpeg|png|webp|gif)$/i` of `imageProcessor.ts` line 181. -/
def isImageName (s : String) : Bool :=
  let l := s.data.map Char.toLower
  ["jpg", "jpeg", "png", "webp", "gif"].any (fun e => endsWithChars l ('.' :: e.data))

/-- One entry of a loaded archive (a value of `loadedZip.files`): its
full path name, its directory flag, and its binary content (blobs are
identified with natural numbers throughout). -/
structure ZipEntry where
  name : String
  dir : Bool
  data : Nat
deriving DecidableEq

/-- The filter of `extractImagesFromZip` (`imageProcessor.ts` lines
180-182): keep entries that are not directories and whose filename has
an image extension. -/
def isImageEntry (e : ZipEntry) : Bool :=
  !e.dir && isImageName e.name

/-- A platform `File`: a name and binary content. -/
structure JsFile where
  name : String
  data : Nat
deriving DecidableEq

/-- Renaming of an extracted entry (`imageProcessor.ts` line 185):
`filename.split('/').pop() || filename`, i.e. the part after the last
slash, falling back to the whole name when that part is empty. -/
def cleanName (s : String) : String :=
  let seg := String.mk ((s.data.reverse.takeWhile (fun c => c ≠ '/')).reverse)
  if seg = "" then s else seg

/-- The `extractImagesFromZip` service (`imageProcessor.ts` lines
176-189): keep qualifying entries in archive order and rebuild each as
a file named by its last path segment. -/
def extractImagesFromZip (entries : List ZipEntry) : List JsFile :=
  (entries.filter isImageEntry).map (fun e => { name := cleanName e.name, data := e.data })

/-- Lifecycle status of a queued item (`UploadedFile.status`). -/
inductive FileStatus
| pending
| processing
| success
| error
deriving DecidableEq

/-- A queued item, the `UploadedFile` record of `types.ts` restricted
to the modelled fields (`id`, `file`, `previewUrl` and the optional
original dimensions are omitted).  `outcome` is the fixed result of
`await processImage(...)` on this file's bytes — `some blob` if the
conversion succeeds, `none` if it throws — supplied as an oracle
because decoding/encoding happen outside the model. -/
structure UploadedFile where
  originalName : String
  status : FileStatus
  errorMessage : Option String
  processedBlob : Option Nat
  outcome : Option Nat
deriving DecidableEq

/-- One input handed to the intake handler, already classified the way
`processFiles` (`App.tsx` lines 112-128) classifies it: an archive
(mime `application/zip`/`application/x-zip-compressed` or name ending
in `.zip`, with its entry list; extraction is assumed to parse), a
direct image (mime `image/*`), or anything else (skipped). -/
inductive InputFile
| archive (entries : List ZipEntry)
| image (f : JsFile)
| other
deriving DecidableEq

/-- The intake handler `processFiles` (`App.tsx` lines 112-128): zip
inputs are expanded through `extractImagesFromZip`, images enter
directly, other files are ignored; every new item starts `pending`. -/
def processFiles (inputs : List InputFile) : List UploadedFile :=
  inputs.flatMap (fun i =>
    match i with
    | InputFile.archive entries =>
        (extractImagesFromZip entries).map (fun f =>
          { originalName := f.name, status := FileStatus.pending,
            errorMessage := none, processedBlob := none, outcome := some f.data })
    | InputFile.image f =>
        [{ originalName := f.name, status := FileStatus.pending,
           errorMessage := none, processedBlob := none, outcome := some f.data }]
    | InputFile.other => [])

/-- Prefix of the original name up to its last dot, used for output
names (`App.tsx` line 162, `imageProcessor.ts` line 329):
`originalName.substring(0, originalName.lastIndexOf('.')) || originalName`
(the fallback covers names with no dot and names whose only dot is the
leading character). -/
def baseNameOf (s : String) : String :=
  match s.data.reverse.dropWhile (fun c => c ≠ '.') with
  | [] => s
  | _ :: restRev =>
      let b := String.mk restRev.reverse
      if b = "" then s else b

/-- Output filename for one converted item (`App.tsx` line 163 and
`imageProcessor.ts` line 330): the base name, the target dimensions
unless the original size is kept, the `_converted` marker and the
format extension. -/
def outputFileName (orig : String) (cfg : ProcessingConfig) : String :=
  if cfg.keepOriginalSize then
    baseNameOf orig ++ "_converted." ++ cfg.format.mimeExt
  else
    baseNameOf orig ++ "_" ++ toString cfg.width ++ "x" ++ toString cfg.height
      ++ "_converted." ++ cfg.format.mimeExt

/-- Adding a named file to a zip folder (`folder.file(fileName, blob)`):
JSZip replaces an existing entry of the same name, otherwise appends. -/
def zipAddFile (entries : List (String × Nat)) (n : String) (b : Nat) : List (String × Nat) :=
  if entries.any (fun e => e.1 == n) then
    entries.map (fun e => if e.1 == n then (n, b) else e)
  else entries ++ [(n, b)]

/-- The produced archive: the folder name and its entries. -/
structure ZipArchive where
  folderName : String
  entries : List (String × Nat)
deriving DecidableEq

/-- The `packageZip` service (`imageProcessor.ts` lines 322-335): a
folder named after the target size receives one entry per item with
`success` status and a stored blob, named by `outputFileName`. -/
def packageZip (processedFiles : List UploadedFile) (cfg : ProcessingConfig) : ZipArchive :=
  { folderName :=
      if cfg.keepOriginalSize then "converted_original_size"
      else "converted_" ++ toString cfg.width ++ "x" ++ toString cfg.height,
    entries := processedFiles.foldl (fun acc f =>
      if f.status == FileStatus.success && f.processedBlob.isSome then
        zipAddFile acc (outputFileName f.originalName cfg) (f.processedBlob.getD 0)
      else acc) [] }

/-- The run summary, `ProcessSummary` of `types.ts`. -/
structure ProcessSummary where
  total : Nat
  success : Nat
  failed : Nat
  outputZipName : String
deriving DecidableEq

/-- The artifact `startProcessing` offers for download through
`saveAs`: a single converted blob or a packaged archive. -/
inductive Artifact
| file (name : String) (blob : Nat)
| zip (name : String) (archive : ZipArchive)
deriving DecidableEq

/-- The orchestrator-owned UI state: the queue and the run indicators. -/
structure AppState where
  files : List UploadedFile
  isProcessing : Bool
  progress : Nat
  summary : Option ProcessSummary
deriving DecidableEq

/-- One iteration of the processing loop (`App.tsx` lines 148-156) on
one item: a successful composite stores the blob and marks `success`,
a thrown error marks `error` with the generic message. -/
def runItem (f : UploadedFile) : UploadedFile :=
  match f.outcome with
  | some b => { f with status := FileStatus.success, processedBlob := some b }
  | none => { f with status := FileStatus.error, errorMessage := some "Conversion failed" }

/-- Filter for items that download (`App.tsx` line 159):
`f.status === 'success' && f.processedBlob`. -/
def succAndBlob (f : UploadedFile) : Bool :=
  f.status == FileStatus.success && f.processedBlob.isSome

/-- The batch run `startProcessing` (`App.tsx` lines 143-175), as a
function from the pre-run state (plus the config snapshot and the
`Date.now()` timestamp used in the archive name) to the post-run state
and the artifact offered for download.  An empty queue returns before
touching any state.  Otherwise every item is attempted in order; the
final progress is `round(100 * n / n) = 100`, `isProcessing` is back to
`false`, and the summary and artifact follow the success count: one
success downloads the single blob under its derived name, more than one
packages the zip, zero produces no artifact. -/
def startProcessing (s : AppState) (cfg : ProcessingConfig) (now : Nat) :
    AppState × Option Artifact :=
  if s.files = [] then (s, none)
  else
    let updated := s.files.map runItem
    let successCount := updated.countP (fun f => f.status == FileStatus.success)
    let failCount := updated.countP (fun f => f.status == FileStatus.error)
    if 0 < successCount then
      if (updated.filter succAndBlob).length = 1 then
        match updated.filter succAndBlob with
        | f :: _ =>
            ({ files := updated, isProcessing := false, progress := 100,
               summary := some { total := updated.length, success := successCount,
                                 failed := failCount,
                                 outputZipName := outputFileName f.originalName cfg } },
             if f.processedBlob.isSome then
               some (Artifact.file (outputFileName f.originalName cfg) (f.processedBlob.getD 0))
             else none)
        | [] =>
            ({ files := updated, isProcessing := false, progress := 100,
               summary := some { total := updated.length, success := successCount,
                                 failed := failCount, outputZipName := "" } }, none)
      else
        ({ files := updated, isProcessing := false, progress := 100,
           summary := some { total := updated.length, success := successCount,
                             failed := failCount,
                             outputZipName := "converted_images_" ++ toString now ++ ".zip" } },
         some (Artifact.zip ("converted_images_" ++ toString now ++ ".zip")
           (packageZip updated cfg)))
    else
      ({ files := updated, isProcessing := false, progress := 100,
         summary := some { total := updated.length, success := 0,
                           failed := failCount, outputZipName := "" } }, none)

/-! ## Concrete instances used by witnesses and counterexamples -/

/-- Scenario A config: `{keepOriginalSize:false, width:800, height:600,
format:JPEG}`; the remaining fields are the `App.tsx` defaults. -/
def cfgA : ProcessingConfig :=
  { keepOriginalSize := false
    aspectRatio := "custom"
    width := 800
    height := 600
    format := ImageFormat.jpg
    quality := 85 / 100
    fillBackground := false
    watermarkEnabled := false
    watermarkImageUrl := none
    watermarkOpacity := 8 / 10
    watermarkScale := 20
    watermarkRotation := 0
    watermarkPosition := WatermarkPosition.bottomRight
    watermarkMode := WatermarkMode.single
    watermarkColorMode := WatermarkColorMode.original
    customX := 50
    customY := 50 }

/-! ## C1: base draw geometry -/

/-- C1 counterexample: with config `{keepOriginalSize:false, width:800,
height:600, format:JPEG}` and a 1600×900 source, the base draw computed
by `processImage` is the 800×450 rectangle at offsets (0, 75) — it fits
the width and letterboxes vertically — refuting the claim that it fits
height 600 with a negative horizontal offset (≈ -133.3). -/
theorem c1_counterexample :
    baseDrawRect { width := 1600, height := 900 } cfgA
      = { offsetX := 0, offsetY := 75, drawWidth := 800, drawHeight := 450 } ∧
    ¬ ((baseDrawRect { width := 1600, height := 900 } cfgA).drawHeight = 600 ∧
       (baseDrawRect { width := 1600, height := 900 } cfgA).offsetX < 0) := by
  have hbd : baseDrawRect { width := 1600, height := 900 } cfgA
      = { offsetX := 0, offsetY := 75, drawWidth := 800, drawHeight := 450 } := by
    rw [baseDrawRect]
    norm_num [cfgA, DrawRect.mk.injEq]
  refine ⟨hbd, ?_⟩
  rw [hbd]
  norm_num

/-- C1 (amended): for every raster and every config with
`keepOriginalSize = false` and positive dimensions, the base draw
scales the image to fit entirely inside the `width × height` canvas
while preserving aspect ratio and centers the empty space on the axis
that falls short (letterbox/contain): if the source is wider relative
to the target it fits the width and is centered vertically, otherwise
it fits the height and is centered horizontally; when the background
fill condition holds the canvas is filled white first and the base
image is drawn immediately after. -/
theorem c1_amended (img : Raster) (cfg : ProcessingConfig) (wmRes : Except Unit Raster)
    (hkeep : cfg.keepOriginalSize = false)
    (hiw : 0 < img.width) (hih : 0 < img.height)
    (hw : 0 < cfg.width) (hh : 0 < cfg.height) :
    (baseDrawRect img cfg).drawWidth ≤ (cfg.width : ℚ) ∧
    (baseDrawRect img cfg).drawHeight ≤ (cfg.height : ℚ) ∧
    (baseDrawRect img cfg).drawWidth * (img.height : ℚ)
      = (baseDrawRect img cfg).drawHeight * (img.width : ℚ) ∧
    2 * (baseDrawRect img cfg).offsetX = (cfg.width : ℚ) - (baseDrawRect img cfg).drawWidth ∧
    2 * (baseDrawRect img cfg).offsetY = (cfg.height : ℚ) - (baseDrawRect img cfg).drawHeight ∧
    0 ≤ (baseDrawRect img cfg).offsetX ∧
    0 ≤ (baseDrawRect img cfg).offsetY ∧
    ((img.width : ℚ) / (img.height : ℚ) > (cfg.width : ℚ) / (cfg.height : ℚ) →
      (baseDrawRect img cfg).drawWidth = (cfg.width : ℚ)) ∧
    ((img.width : ℚ) / (img.height : ℚ) ≤ (cfg.width : ℚ) / (cfg.height : ℚ) →
      (baseDrawRect img cfg).drawHeight = (cfg.height : ℚ)) ∧
    (shouldFillBackground cfg = true →
      (renderCanvas img cfg wmRes).ops.take 2 =
        [Op.fillWhite (cfg.width : ℚ) (cfg.height : ℚ),
         Op.drawBase (baseDrawRect img cfg).offsetX (baseDrawRect img cfg).offsetY
           (baseDrawRect img cfg).drawWidth (baseDrawRect img cfg).drawHeight]) := by
  have hiw' : (0 : ℚ) < (img.width : ℚ) := by exact_mod_cast hiw
  have hih' : (0 : ℚ) < (img.height : ℚ) := by exact_mod_cast hih
  have hw' : (0 : ℚ) < (cfg.width : ℚ) := by exact_mod_cast hw
  have hh' : (0 : ℚ) < (cfg.height : ℚ) := by exact_mod_cast hh
  have htake : shouldFillBackground cfg = true →
      (renderCanvas img cfg wmRes).ops.take 2 =
        [Op.fillWhite (cfg.width : ℚ) (cfg.height : ℚ),
         Op.drawBase (baseDrawRect img cfg).offsetX (baseDrawRect img cfg).offsetY
           (baseDrawRect img cfg).drawWidth (baseDrawRect img cfg).drawHeight] := by
    intro hfb
    simp [renderCanvas, backgroundOps, baseOps, hfb, hkeep, canvasW, canvasH]
  by_cases hcmp : (img.width : ℚ) / (img.height : ℚ) > (cfg.width : ℚ) / (cfg.height : ℚ)
  · have key : (cfg.width : ℚ) * (img.height : ℚ) < (img.width : ℚ) * (cfg.height : ℚ) :=
      (div_lt_div_iff₀ hh' hih').1 hcmp
    have hdh : (img.height : ℚ) * ((cfg.width : ℚ) / (img.width : ℚ)) ≤ (cfg.height : ℚ) := by
      rw [mul_div_assoc', div_le_iff₀ hiw']
      nlinarith
    have hbd : baseDrawRect img cfg =
        { offsetX := 0,
          offsetY := ((cfg.height : ℚ) - (img.height : ℚ) * ((cfg.width : ℚ) / (img.width : ℚ))) / 2,
          drawWidth := (cfg.width : ℚ),
          drawHeight := (img.height : ℚ) * ((cfg.width : ℚ) / (img.width : ℚ)) } := by
      rw [baseDrawRect, if_pos hcmp]
    have e1 : (baseDrawRect img cfg).drawWidth = (cfg.width : ℚ) := by rw [hbd]
    have e2 : (baseDrawRect img cfg).drawHeight
        = (img.height : ℚ) * ((cfg.width : ℚ) / (img.width : ℚ)) := by rw [hbd]
    have e3 : (baseDrawRect img cfg).offsetX = 0 := by rw [hbd]
    have e4 : (baseDrawRect img cfg).offsetY
        = ((cfg.height : ℚ) - (img.height : ℚ) * ((cfg.width : ℚ) / (img.width : ℚ))) / 2 := by
      rw [hbd]
    refine ⟨?_, ?_, ?_, ?_, ?_, ?_, ?_, ?_, ?_, htake⟩
    · rw [e1]
    · rw [e2]; exact hdh
    · rw [e1, e2]; field_simp; ring
    · rw [e3, e1]; ring
    · rw [e4, e2]; ring
    · rw [e3]
    · rw [e4]; linarith
    · intro _; exact e1
    · intro hle; exact absurd hcmp (not_lt.mpr hle)
  · have hle : (img.width : ℚ) / (img.height : ℚ) ≤ (cfg.width : ℚ) / (cfg.height : ℚ) :=
      not_lt.1 hcmp
    have key : (img.width : ℚ) * (cfg.height : ℚ) ≤ (cfg.width : ℚ) * (img.height : ℚ) :=
      (div_le_div_iff₀ hih' hh').1 hle
    have hdw : (img.width : ℚ) * ((cfg.height : ℚ) / (img.height : ℚ)) ≤ (cfg.width : ℚ) := by
      rw [mul_div_assoc', div_le_iff₀ hih']
      nlinarith
    have hbd : baseDrawRect img cfg =
        { offsetX := ((cfg.width : ℚ) - (img.width : ℚ) * ((cfg.height : ℚ) / (img.height : ℚ))) / 2,
          offsetY := 0,
          drawWidth := (img.width : ℚ) * ((cfg.height : ℚ) / (img.height : ℚ)),
          drawHeight := (cfg.height : ℚ) } := by
      rw [baseDrawRect, if_neg hcmp]
    have e1 : (baseDrawRect img cfg).drawWidth
        = (img.width : ℚ) * ((cfg.height : ℚ) / (img.height : ℚ)) := by rw [hbd]
    have e2 : (baseDrawRect img cfg).drawHeight = (cfg.height : ℚ) := by rw [hbd]
    have e3 : (baseDrawRect img cfg).offsetX
        = ((cfg.width : ℚ) - (img.width : ℚ) * ((cfg.height : ℚ) / (img.height : ℚ))) / 2 := by
      rw [hbd]
    have e4 : (baseDrawRect img cfg).offsetY = 0 := by rw [hbd]
    refine ⟨?_, ?_, ?_, ?_, ?_, ?_, ?_, ?_, ?_, htake⟩
    · rw [e1]; exact hdw
    · rw [e2]
    · rw [e1, e2]; field_simp; ring
    · rw [e3, e1]; ring
    · rw [e4, e2]; ring
    · rw [e3]; linarith
    · rw [e4]
    · intro hgt; exact absurd hgt hcmp
    · intro _; exact e2

/-- C1 amended witness at the Scenario A input: the 1600×900 source on
the 800×600 JPEG config satisfies the amended letterbox contract. -/
theorem c1_amended_witness :
    (0 : ℚ) ≤ (baseDrawRect { width := 1600, height := 900 } cfgA).offsetY ∧
    (baseDrawRect { width := 1600, height := 900 } cfgA).drawHeight ≤ (cfgA.height : ℚ) ∧
    (renderCanvas { width := 1600, height := 900 } cfgA (Except.error ())).ops.take 2 =
      [Op.fillWhite (cfgA.width : ℚ) (cfgA.height : ℚ),
       Op.drawBase (baseDrawRect { width := 1600, height := 900 } cfgA).offsetX
         (baseDrawRect { width := 1600, height := 900 } cfgA).offsetY
         (baseDrawRect { width := 1600, height := 900 } cfgA).drawWidth
         (baseDrawRect { width := 1600, height := 900 } cfgA).drawHeight] := by
  have h := c1_amended { width := 1600, height := 900 } cfgA (Except.error ())
    rfl (by decide) (by decide) (by decide) (by decide)
  exact ⟨h.2.2.2.2.2.2.1, h.2.1, h.2.2.2.2.2.2.2.2.2 (by decide)⟩

/-! ## C2: tiled watermark grid -/

/-- Loop-faithfulness of `tiledCount`: the iterate of column/row `k`
is below the loop bound exactly when `k` is below the iteration count. -/
lemma tiledCount_iff (L s : ℚ) (hs : 0 < s) (k : ℕ) :
    k < tiledCount L s ↔ -s + (k : ℚ) * s < L + s := by
  rw [tiledCount, Nat.lt_ceil]
  have hsne : s ≠ 0 := ne_of_gt hs
  constructor
  · intro h
    have h2 : (k : ℚ) * s < (L / s + 2) * s := mul_lt_mul_of_pos_right h hs
    rw [add_mul, div_mul_cancel₀ _ hsne] at h2
    linarith
  · intro h
    have h2 : (k : ℚ) * s < L + 2 * s := by linarith
    have h3 : (k : ℚ) < (L + 2 * s) / s := (lt_div_iff₀ hs).mpr h2
    have h4 : (L + 2 * s) / s = L / s + 2 := by
      rw [add_div, mul_div_assoc, div_self hsne, mul_one]
    rw [h4] at h3
    exact h3

/-- Every member of the tiled grid comes from a column index and a row
index below the respective loop counts. -/
lemma mem_tiledPlacements {L H sx sy : ℚ} {p : ℚ × ℚ}
    (hp : p ∈ tiledPlacements L H sx sy) :
    ∃ k j : ℕ, k < tiledCount L sx ∧ j < tiledCount H sy ∧ p = tiledPlacement sx sy k j := by
  simp only [tiledPlacements, List.mem_flatMap, List.mem_map, List.mem_range] at hp
  obtain ⟨k, hk, j, hj, hpe⟩ := hp
  exact ⟨k, j, hk, hj, hpe.symm⟩

/-- Vertical coordinate of a tiled placement. -/
lemma tiledPlacement_snd (sx sy : ℚ) (k j : ℕ) :
    (tiledPlacement sx sy k j).2 = -sy + (j : ℚ) * sy := rfl

/-- The horizontal coordinate of a tiled placement is the column
iterate shifted by the row offset, which is between `0` and `sx / 2`. -/
lemma tiledPlacement_fst_bounds (sx sy : ℚ) (hsx : 0 ≤ sx) (k j : ℕ) :
    -sx + (k : ℚ) * sx ≤ (tiledPlacement sx sy k j).1 ∧
    (tiledPlacement sx sy k j).1 ≤ -sx + (k : ℚ) * sx + sx / 2 := by
  unfold tiledPlacement
  dsimp only
  constructor
  · split
    · linarith
    · linarith
  · split
    · linarith
    · linarith

/-- In exact arithmetic the row-parity test of the tiling loop reads
off the row index: `Math.floor((y + stepY) / stepY)` at
`y = -stepY + j*stepY` is `j`. -/
lemma tiledPlacement_fst (sx sy : ℚ) (hsy : sy ≠ 0) (k j : ℕ) :
    (tiledPlacement sx sy k j).1
      = -sx + (k : ℚ) * sx + (if ((j : ℕ) : ℤ) % 2 = 0 then sx / 2 else 0) := by
  unfold tiledPlacement
  dsimp only
  have hy : ((-sy + (j : ℚ) * sy) + sy) / sy = ((j : ℕ) : ℚ) := by
    field_simp
  rw [hy, Int.floor_natCast]

/-- C2 counterexample input: a 10×10 canvas, watermark scale 20 and a
square watermark source, so both tiling steps are 3. -/
def cfgT2 : ProcessingConfig :=
  { cfgA with
    watermarkEnabled := true
    watermarkImageUrl := some "logo.png"
    watermarkMode := WatermarkMode.tiled }

/-- Horizontal step of the C2 instance. -/
lemma cfgT2_stepX : wmStepX 10 cfgT2 = 3 := by
  rw [wmStepX, wmTargetW]
  norm_num [cfgT2, cfgA]

/-- Vertical step of the C2 instance. -/
lemma cfgT2_stepY : wmStepY 10 cfgT2 5 5 = 3 := by
  rw [wmStepY, wmTargetH, wmTargetW]
  norm_num [cfgT2, cfgA]

/-- The staggered first row of the C2 instance contains the placement
centered at `(13.5, -3)` (column 5, row 0 of the grid). -/
lemma tiled_mem_example : ((27 / 2 : ℚ), (-3 : ℚ)) ∈ wmPositions 10 10 cfgT2 5 5 := by
  have hwm : wmPositions 10 10 cfgT2 5 5
      = tiledPlacements 10 10 (wmStepX 10 cfgT2) (wmStepY 10 cfgT2 5 5) := rfl
  rw [hwm, cfgT2_stepX, cfgT2_stepY]
  have hc : tiledCount 10 3 = 6 := by
    rw [tiledCount, show (10 : ℚ) / 3 + 2 = 16 / 3 by norm_num,
      Nat.ceil_eq_iff (by norm_num)]
    norm_num
  simp only [tiledPlacements, hc, List.mem_flatMap, List.mem_map, List.mem_range]
  refine ⟨5, by norm_num, 0, by norm_num, ?_⟩
  unfold tiledPlacement
  norm_num

/-- C2 counterexample: on a 10×10 canvas with watermark scale 20 and a
5×5 watermark source (steps `stepX = stepY = 3`), the tiling loop
produces the placement center `(13.5, -3)`, whose horizontal coordinate
exceeds `canvasWidth + step = 13`, refuting the claimed horizontal
bound `[-step, canvasDimension + step]`. -/
theorem c2_counterexample :
    ((27 / 2 : ℚ), (-3 : ℚ)) ∈ wmPositions 10 10 cfgT2 5 5 ∧
    ¬ ((27 / 2 : ℚ) ≤ 10 + wmStepX 10 cfgT2) := by
  refine ⟨tiled_mem_example, ?_⟩
  rw [cfgT2_stepX]
  norm_num

/-- C2 (amended): for tiled mode with positive steps, every placement
center lies within `[-step, canvasDimension + step)` on the vertical
axis and within `[-step, canvasDimension + step + step/2)` on the
horizontal axis (the half-step row stagger can push centers up to
`step/2` beyond the unstaggered bound), and adjacent rows differ in
horizontal offset by exactly `step/2`. -/
theorem c2_amended (cw ch : ℚ) (cfg : ProcessingConfig) (wmW wmH : ℚ)
    (hmode : cfg.watermarkMode = WatermarkMode.tiled)
    (hsx : 0 < wmStepX cw cfg) (hsy : 0 < wmStepY cw cfg wmW wmH) :
    (∀ p ∈ wmPositions cw ch cfg wmW wmH,
        (-(wmStepX cw cfg) ≤ p.1 ∧ p.1 < cw + wmStepX cw cfg + wmStepX cw cfg / 2) ∧
        (-(wmStepY cw cfg wmW wmH) ≤ p.2 ∧ p.2 < ch + wmStepY cw cfg wmW wmH)) ∧
    (∀ k j : ℕ,
        (tiledPlacement (wmStepX cw cfg) (wmStepY cw cfg wmW wmH) k (j + 1)).1
            - (tiledPlacement (wmStepX cw cfg) (wmStepY cw cfg wmW wmH) k j).1
            = wmStepX cw cfg / 2 ∨
        (tiledPlacement (wmStepX cw cfg) (wmStepY cw cfg wmW wmH) k j).1
            - (tiledPlacement (wmStepX cw cfg) (wmStepY cw cfg wmW wmH) k (j + 1)).1
            = wmStepX cw cfg / 2) := by
  have hwm : wmPositions cw ch cfg wmW wmH
      = tiledPlacements cw ch (wmStepX cw cfg) (wmStepY cw cfg wmW wmH) := by
    simp only [wmPositions, hmode]
  constructor
  · intro p hp
    rw [hwm] at hp
    obtain ⟨k, j, hk, hj, hpe⟩ := mem_tiledPlacements hp
    have hxb := tiledPlacement_fst_bounds (wmStepX cw cfg) (wmStepY cw cfg wmW wmH)
      (le_of_lt hsx) k j
    have hkx := (tiledCount_iff cw (wmStepX cw cfg) hsx k).1 hk
    have hjy := (tiledCount_iff ch (wmStepY cw cfg wmW wmH) hsy j).1 hj
    have hk0 : 0 ≤ (k : ℚ) * wmStepX cw cfg :=
      mul_nonneg (Nat.cast_nonneg k) (le_of_lt hsx)
    have hj0 : 0 ≤ (j : ℚ) * wmStepY cw cfg wmW wmH :=
      mul_nonneg (Nat.cast_nonneg j) (le_of_lt hsy)
    subst hpe
    refine ⟨⟨by linarith [hxb.1], by linarith [hxb.2]⟩, ?_⟩
    rw [tiledPlacement_snd]
    exact ⟨by linarith, by linarith⟩
  · intro k j
    have hf1 := tiledPlacement_fst (wmStepX cw cfg) (wmStepY cw cfg wmW wmH)
      (ne_of_gt hsy) k (j + 1)
    have hf0 := tiledPlacement_fst (wmStepX cw cfg) (wmStepY cw cfg wmW wmH)
      (ne_of_gt hsy) k j
    rw [hf1, hf0]
    by_cases hpar : ((j : ℕ) : ℤ) % 2 = 0
    · have hpar1 : ¬ (((j + 1 : ℕ) : ℤ) % 2 = 0) := by push_cast; omega
      rw [if_pos hpar, if_neg hpar1]
      right
      ring
    · have hpar1 : ((j + 1 : ℕ) : ℤ) % 2 = 0 := by push_cast; omega
      rw [if_neg hpar, if_pos hpar1]
      left
      ring

/-- C2 amended witness: the amended bounds hold at the concrete
placement `(13.5, -3)` of the 10×10 instance with steps 3. -/
theorem c2_amended_witness :
    (-(wmStepX 10 cfgT2) ≤ (27 / 2 : ℚ) ∧
      (27 / 2 : ℚ) < 10 + wmStepX 10 cfgT2 + wmStepX 10 cfgT2 / 2) ∧
    (-(wmStepY 10 cfgT2 5 5) ≤ (-3 : ℚ) ∧ (-3 : ℚ) < 10 + wmStepY 10 cfgT2 5 5) :=
  (c2_amended 10 10 cfgT2 5 5 rfl
    (by rw [cfgT2_stepX]; norm_num) (by rw [cfgT2_stepY]; norm_num)).1
    ((27 / 2 : ℚ), (-3 : ℚ)) tiled_mem_example

/-! ## C4: watermark failures are swallowed -/

/-- Helper: a failed watermark block draws nothing. -/
lemma watermarkOps_error (img : Raster) (cfg : ProcessingConfig) (e : Unit) :
    watermarkOps img cfg (Except.error e) = [] := by
  rw [watermarkOps.eq_def]
  split <;> rfl

/-- Helper: a disabled watermark draws nothing. -/
lemma watermarkOps_disabled (img : Raster) (cfg : ProcessingConfig)
    (h : cfg.watermarkEnabled = false) (wm : Except Unit Raster) :
    watermarkOps img cfg wm = [] := by
  rw [watermarkOps.eq_def, h]
  rfl

/-- C4: for every raster and config, when the watermark block's
fallible part fails, `processImage` (given a context and a successful
encode, the two failure sources outside the watermark block) still
returns an encoded result, and that result is identical to the one
produced with watermarking disabled — only the overlay is skipped. -/
theorem c4_watermark_swallowed (img : Raster) (cfg : ProcessingConfig) (e : Unit)
    (wmAny : Except Unit Raster) :
    (∃ c, processImage img cfg true (Except.error e) true = Except.ok c) ∧
    processImage img cfg true (Except.error e) true
      = processImage img { cfg with watermarkEnabled := false } true wmAny true := by
  constructor
  · exact ⟨renderCanvas img cfg (Except.error e), rfl⟩
  · show Except.ok (renderCanvas img cfg (Except.error e))
      = Except.ok (renderCanvas img { cfg with watermarkEnabled := false } wmAny)
    rw [renderCanvas, renderCanvas, watermarkOps_error,
      watermarkOps_disabled img { cfg with watermarkEnabled := false } rfl wmAny]
    exact rfl

/-! ## C6: dual and triple layouts -/

/-- C6: dual mode produces exactly two placements whose centers are
symmetric about the canvas center (coordinate sums are the canvas
dimensions, i.e. the midpoint is `(cw/2, ch/2)`), and triple mode
produces exactly three placements: the two dual corner placements with
`(cw/2, ch/2)` inserted between them. -/
theorem c6_dual_triple (cw ch : ℚ) (cfg : ProcessingConfig) (wmW wmH : ℚ) :
    (cfg.watermarkMode = WatermarkMode.dual →
      ∃ p q, wmPositions cw ch cfg wmW wmH = [p, q] ∧ p.1 + q.1 = cw ∧ p.2 + q.2 = ch) ∧
    (cfg.watermarkMode = WatermarkMode.triple →
      ∃ p q, wmPositions cw ch cfg wmW wmH = [p, (cw / 2, ch / 2), q] ∧
        wmPositions cw ch { cfg with watermarkMode := WatermarkMode.dual } wmW wmH
          = [p, q]) := by
  constructor
  · intro h
    refine ⟨(wmPadding cw ch + wmTargetW cw cfg / 2,
             wmPadding cw ch + wmTargetH cw cfg wmW wmH / 2),
            (cw - wmPadding cw ch - wmTargetW cw cfg / 2,
             ch - wmPadding cw ch - wmTargetH cw cfg wmW wmH / 2),
            ?_, by dsimp only; ring, by dsimp only; ring⟩
    simp only [wmPositions, h]
  · intro h
    refine ⟨(wmPadding cw ch + wmTargetW cw cfg / 2,
             wmPadding cw ch + wmTargetH cw cfg wmW wmH / 2),
            (cw - wmPadding cw ch - wmTargetW cw cfg / 2,
             ch - wmPadding cw ch - wmTargetH cw cfg wmW wmH / 2),
            ?_, ?_⟩
    · simp only [wmPositions, h]
    · rfl

/-- Canvas for the C6 witness instance: dual mode on 100×50. -/
def cfgD6 : ProcessingConfig :=
  { cfgA with
    watermarkEnabled := true
    watermarkImageUrl := some "logo.png"
    watermarkMode := WatermarkMode.dual }

/-- Triple-mode variant of the C6 witness config. -/
def cfgT6 : ProcessingConfig :=
  { cfgD6 with watermarkMode := WatermarkMode.triple }

/-- C6 witness on a 100×50 canvas with a square watermark: two dual
placements, three triple placements with the canvas center in the
middle. -/
theorem c6_dual_triple_witness :
    (wmPositions 100 50 cfgD6 4 4).length = 2 ∧
    (wmPositions 100 50 cfgT6 4 4).length = 3 ∧
    (wmPositions 100 50 cfgT6 4 4)[1]? = some (100 / 2, 50 / 2) := by
  obtain ⟨p, q, hpq, -, -⟩ := (c6_dual_triple 100 50 cfgD6 4 4).1 rfl
  obtain ⟨a, b, hab, -⟩ := (c6_dual_triple 100 50 cfgT6 4 4).2 rfl
  refine ⟨?_, ?_, ?_⟩
  · rw [hpq]; rfl
  · rw [hab]; rfl
  · rw [hab]; rfl

/-! ## C7: background fill condition -/

/-- Helper: mapping into a predicate that is constantly false makes
`any` false. -/
lemma any_map_const_false (l : List α) (f : α → β) (p : β → Bool)
    (h : ∀ a, p (f a) = false) : (l.map f).any p = false := by
  induction l with
  | nil => rfl
  | cons a t ih => simp [h a, ih]

/-- C7: the canvas receives a white background fill if and only if the
output format is JPEG or `fillBackground` is set, and when it does, the
fill is the very first draw operation. -/
theorem c7_background_fill (img : Raster) (cfg : ProcessingConfig)
    (wmRes : Except Unit Raster) :
    ((renderCanvas img cfg wmRes).ops.any Op.isFillWhite = true
      ↔ (cfg.format = ImageFormat.jpg ∨ cfg.fillBackground = true)) ∧
    ((cfg.format = ImageFormat.jpg ∨ cfg.fillBackground = true) →
      (renderCanvas img cfg wmRes).ops.head?
        = some (Op.fillWhite (canvasW img cfg) (canvasH img cfg))) := by
  have hcond : shouldFillBackground cfg = true
      ↔ (cfg.format = ImageFormat.jpg ∨ cfg.fillBackground = true) := by
    rw [shouldFillBackground]
    simp [Bool.or_eq_true, beq_iff_eq]
  have hbase : (baseOps img cfg).any Op.isFillWhite = false := by
    rw [baseOps]
    split <;> rfl
  have hwm : (watermarkOps img cfg wmRes).any Op.isFillWhite = false := by
    rw [watermarkOps.eq_def]
    split
    · cases wmRes with
      | ok wm => exact any_map_const_false _ _ _ (fun a => rfl)
      | error e => rfl
    · rfl
  constructor
  · show (backgroundOps img cfg ++ baseOps img cfg ++ watermarkOps img cfg wmRes).any
        Op.isFillWhite = true ↔ _
    rw [List.any_append, List.any_append, hbase, hwm]
    rw [backgroundOps]
    split
    · rename_i h
      simp [Op.isFillWhite, hcond.mp h]
    · rename_i h
      have hnot : ¬ (cfg.format = ImageFormat.jpg ∨ cfg.fillBackground = true) :=
        fun hr => h (hcond.mpr hr)
      simp [hnot]
  · intro hr
    have h : shouldFillBackground cfg = true := hcond.mpr hr
    show (backgroundOps img cfg ++ baseOps img cfg ++ watermarkOps img cfg wmRes).head? = _
    rw [backgroundOps, if_pos h]
    rfl

/-- C7 witness: with the JPEG config, the first draw on a 4×3 raster is
the white fill. -/
theorem c7_background_fill_witness :
    (renderCanvas { width := 4, height := 3 } cfgA (Except.error ())).ops.head?
      = some (Op.fillWhite (canvasW { width := 4, height := 3 } cfgA)
          (canvasH { width := 4, height := 3 } cfgA)) :=
  (c7_background_fill { width := 4, height := 3 } cfgA (Except.error ())).2 (Or.inl rfl)

/-! ## C5: archive extraction filter -/

/-- C5: an archive yields exactly one extracted image file per entry
that is not a directory and carries an image extension
(case-insensitive `jpg|jpeg|png|webp|gif`), and intake of that archive
queues exactly that many items; all other entries are dropped. -/
theorem c5_zip_filter (entries : List ZipEntry) :
    (extractImagesFromZip entries).length = entries.countP isImageEntry ∧
    (processFiles [InputFile.archive entries]).length = entries.countP isImageEntry := by
  have h1 : (extractImagesFromZip entries).length = entries.countP isImageEntry := by
    rw [extractImagesFromZip, List.length_map, List.countP_eq_length_filter]
  refine ⟨h1, ?_⟩
  simp only [processFiles, List.flatMap_cons, List.flatMap_nil, List.append_nil,
    List.length_map]
  exact h1

/-! ## C9: extracted names are flattened to the last path segment -/

/-- Two qualifying entries in different folders sharing one base
filename. -/
def dupEntries : List ZipEntry :=
  [{ name := "folderA/x.jpg", dir := false, data := 1 },
   { name := "folderB/x.jpg", dir := false, data := 2 }]

/-- C9: every extracted file is renamed to the last `/`-separated
segment of its entry name, so the two `dupEntries` enter the queue as
two items both named `x.jpg`, are mapped to the same archive entry
name, and collide into a single archive entry (the later blob wins). -/
theorem c9_flatten_names :
    (∀ entries : List ZipEntry,
      (extractImagesFromZip entries).map JsFile.name
        = (entries.filter isImageEntry).map (fun e => cleanName e.name)) ∧
    cleanName "folderA/x.jpg" = "x.jpg" ∧
    cleanName "folderB/x.jpg" = "x.jpg" ∧
    (processFiles [InputFile.archive dupEntries]).map UploadedFile.originalName
      = ["x.jpg", "x.jpg"] ∧
    ((processFiles [InputFile.archive dupEntries]).map runItem).map
        (fun f => outputFileName f.originalName cfgA)
      = ["x_800x600_converted.jpeg", "x_800x600_converted.jpeg"] ∧
    (packageZip ((processFiles [InputFile.archive dupEntries]).map runItem) cfgA).entries
      = [("x_800x600_converted.jpeg", 2)] := by
  refine ⟨?_, by decide, by decide, by decide, by decide, by decide⟩
  intro entries
  rw [extractImagesFromZip, List.map_map]
  rfl

/-! ## C3, C8, C10: batch orchestration -/

/-- Helper: an item is marked `success` exactly when its composite
succeeded. -/
lemma runItem_success_iff (f : UploadedFile) :
    ((runItem f).status == FileStatus.success) = f.outcome.isSome := by
  cases h : f.outcome <;> simp [runItem, h]

/-- Helper: an item is marked `error` exactly when its composite threw. -/
lemma runItem_error_iff (f : UploadedFile) :
    ((runItem f).status == FileStatus.error) = f.outcome.isNone := by
  cases h : f.outcome <;> simp [runItem, h]

/-- Helper: a processed item is in the download filter exactly when it
is marked `success` (success always stores a blob). -/
lemma succAndBlob_runItem (f : UploadedFile) :
    succAndBlob (runItem f) = ((runItem f).status == FileStatus.success) := by
  cases h : f.outcome <;> simp [runItem, succAndBlob, h]

/-- Helper: the success counter counts the composites that succeeded. -/
lemma countP_map_runItem_success (l : List UploadedFile) :
    (l.map runItem).countP (fun f => f.status == FileStatus.success)
      = l.countP (fun f => f.outcome.isSome) := by
  induction l with
  | nil => rfl
  | cons f t ih => simp [List.countP_cons, ih, runItem_success_iff]

/-- Helper: the failure counter counts the composites that threw. -/
lemma countP_map_runItem_error (l : List UploadedFile) :
    (l.map runItem).countP (fun f => f.status == FileStatus.error)
      = l.countP (fun f => f.outcome.isNone) := by
  induction l with
  | nil => rfl
  | cons f t ih => simp [List.countP_cons, ih, runItem_error_iff]

/-- Helper: the success counter equals the length of the download
filter. -/
lemma countP_success_eq_filter_length (l : List UploadedFile) :
    (l.map runItem).countP (fun f => f.status == FileStatus.success)
      = ((l.map runItem).filter succAndBlob).length := by
  rw [← List.countP_eq_length_filter]
  induction l with
  | nil => rfl
  | cons f t ih => simp [List.countP_cons, ih, succAndBlob_runItem]

/-- Helper: on a non-empty queue the post-run state is fully
determined — every item attempted in place, `isProcessing` back to
`false`, progress 100, and a summary whose counts are the queue length
and the success/failure counters (only the artifact name varies by
branch). -/
lemma startProcessing_state (s : AppState) (cfg : ProcessingConfig) (now : ℕ)
    (hne : s.files ≠ []) :
    ∃ nm, (startProcessing s cfg now).1 =
      { files := s.files.map runItem, isProcessing := false, progress := 100,
        summary := some
          { total := (s.files.map runItem).length,
            success := (s.files.map runItem).countP (fun f => f.status == FileStatus.success),
            failed := (s.files.map runItem).countP (fun f => f.status == FileStatus.error),
            outputZipName := nm } } := by
  rw [startProcessing.eq_def, if_neg hne]
  dsimp only
  by_cases h1 : 0 < (s.files.map runItem).countP (fun f => f.status == FileStatus.success)
  · rw [if_pos h1]
    by_cases h2 : ((s.files.map runItem).filter succAndBlob).length = 1
    · rw [if_pos h2]
      cases hm : (s.files.map runItem).filter succAndBlob with
      | nil => simp only [hm]; exact ⟨"", rfl⟩
      | cons f t => simp only [hm]; exact ⟨outputFileName f.originalName cfg, rfl⟩
    · rw [if_neg h2]
      exact ⟨"converted_images_" ++ toString now ++ ".zip", rfl⟩
  · rw [if_neg h1]
    have h0 : (s.files.map runItem).countP (fun f => f.status == FileStatus.success) = 0 :=
      Nat.eq_zero_of_not_pos h1
    refine ⟨"", ?_⟩
    rw [h0]

/-- C3: a non-empty batch run attempts every queued item in order (the
post-run queue is the image of the pre-run queue under the per-item
step), marks each composite failure `error` with the generic reason
and continues, and ends with a summary whose `total` is the queue
length, `success` the number of items whose composite produced a blob,
and `failed` the number whose composite threw. -/
theorem c3_batch_summary (s : AppState) (cfg : ProcessingConfig) (now : ℕ)
    (hne : s.files ≠ []) :
    (startProcessing s cfg now).1.files = s.files.map runItem ∧
    (∀ f ∈ s.files, f.outcome = none →
      (runItem f).status = FileStatus.error ∧
      (runItem f).errorMessage = some "Conversion failed") ∧
    ∃ nm, (startProcessing s cfg now).1.summary
        = some { total := s.files.length,
                 success := s.files.countP (fun f => f.outcome.isSome),
                 failed := s.files.countP (fun f => f.outcome.isNone),
                 outputZipName := nm } := by
  obtain ⟨nm, hst⟩ := startProcessing_state s cfg now hne
  refine ⟨by rw [hst], ?_, ⟨nm, ?_⟩⟩
  · intro f _ hf
    simp [runItem, hf]
  · rw [hst]
    dsimp only
    rw [List.length_map, countP_map_runItem_success, countP_map_runItem_error]

/-- Scenario C item: first image, composite succeeds with blob 1. -/
def fileA3 : UploadedFile :=
  { originalName := "a.png", status := FileStatus.pending, errorMessage := none,
    processedBlob := none, outcome := some 1 }

/-- Scenario C item: second image, composite succeeds with blob 2. -/
def fileB3 : UploadedFile :=
  { originalName := "b.png", status := FileStatus.pending, errorMessage := none,
    processedBlob := none, outcome := some 2 }

/-- Scenario C item: third image, composite fails to decode. -/
def fileC3 : UploadedFile :=
  { originalName := "c.png", status := FileStatus.pending, errorMessage := none,
    processedBlob := none, outcome := none }

/-- Scenario C pre-run state: three queued images, two of which will
convert and one of which will fail. -/
def s3 : AppState :=
  { files := [fileA3, fileB3, fileC3], isProcessing := false, progress := 0,
    summary := none }

/-- C3 witness (Scenario C): 3 images, 2 succeed, 1 fails → summary
`{total:3, success:2, failed:1}` and an archive with exactly 2 entries. -/
theorem c3_batch_summary_witness :
    (startProcessing s3 cfgA 0).1.files = s3.files.map runItem ∧
    (startProcessing s3 cfgA 0).1.summary
      = some { total := 3, success := 2, failed := 1,
               outputZipName := "converted_images_0.zip" } ∧
    (startProcessing s3 cfgA 0).2
      = some (Artifact.zip "converted_images_0.zip"
          (packageZip (s3.files.map runItem) cfgA)) ∧
    (packageZip (s3.files.map runItem) cfgA).entries.length = 2 :=
  ⟨(c3_batch_summary s3 cfgA 0 (by decide)).1, by decide, by decide, by decide⟩

/-- C8: when a run ends with exactly one item passing the download
filter, the artifact offered through `saveAs` is that item's blob under
the name `{base}_{width}x{height}_converted.{ext}`, or
`{base}_converted.{ext}` when the original size is kept, with the
extension derived from the target format. -/
theorem c8_single_name (s : AppState) (cfg : ProcessingConfig) (now : ℕ)
    (f : UploadedFile)
    (h : (s.files.map runItem).filter succAndBlob = [f]) :
    (startProcessing s cfg now).2
      = some (Artifact.file (outputFileName f.originalName cfg)
          (f.processedBlob.getD 0)) ∧
    outputFileName f.originalName cfg
      = (if cfg.keepOriginalSize then
           baseNameOf f.originalName ++ "_converted." ++ cfg.format.mimeExt
         else
           baseNameOf f.originalName ++ "_" ++ toString cfg.width ++ "x"
             ++ toString cfg.height ++ "_converted." ++ cfg.format.mimeExt) := by
  have hne : s.files ≠ [] := by
    intro h0
    rw [h0] at h
    simp at h
  have hcount : (s.files.map runItem).countP (fun g => g.status == FileStatus.success) = 1 := by
    rw [countP_success_eq_filter_length, h]
    rfl
  have hmem : f ∈ (s.files.map runItem).filter succAndBlob := by
    rw [h]
    exact List.mem_singleton.mpr rfl
  have hblob : f.processedBlob.isSome = true :=
    (Bool.and_eq_true _ _ |>.mp (List.mem_filter.mp hmem).2).2
  have h1 : 0 < (s.files.map runItem).countP (fun g => g.status == FileStatus.success) := by
    rw [hcount]
    exact Nat.one_pos
  have h2 : ((s.files.map runItem).filter succAndBlob).length = 1 := by
    rw [h]
    rfl
  constructor
  · rw [startProcessing.eq_def, if_neg hne]
    dsimp only
    rw [if_pos h1, if_pos h2]
    simp only [h]
    rw [if_pos hblob]
  · rfl

/-- Scenario B config: 300×300 PNG output. -/
def cfgB8 : ProcessingConfig :=
  { cfgA with
    width := 300
    height := 300
    format := ImageFormat.png }

/-- Scenario B item after its run: `photo.png` converted to blob 7. -/
def fileB8 : UploadedFile :=
  { originalName := "photo.png", status := FileStatus.success, errorMessage := none,
    processedBlob := some 7, outcome := some 7 }

/-- Scenario B pre-run state: the single still-pending `photo.png`. -/
def s8 : AppState :=
  { files := [{ originalName := "photo.png", status := FileStatus.pending,
                errorMessage := none, processedBlob := none, outcome := some 7 }],
    isProcessing := false, progress := 0, summary := none }

/-- C8 witness (Scenario B): the single successful conversion of
`photo.png` at 300×300 with `keepOriginalSize:false` downloads as
`photo_300x300_converted.png`. -/
theorem c8_single_name_witness :
    (startProcessing s8 cfgB8 0).2
      = some (Artifact.file "photo_300x300_converted.png" 7) := by
  have h := (c8_single_name s8 cfgB8 0 fileB8 (by decide)).1
  have e1 : outputFileName fileB8.originalName cfgB8 = "photo_300x300_converted.png" := by
    decide
  have e2 : fileB8.processedBlob.getD 0 = 7 := by decide
  rw [e1, e2] at h
  exact h

/-- C10: starting a run with an empty queue is a no-op: the state is
returned unchanged (no status, progress or summary mutation, no
processing phase) and no artifact is produced. -/
theorem c10_empty_noop (s : AppState) (cfg : ProcessingConfig) (now : ℕ)
    (h : s.files = []) :
    startProcessing s cfg now = (s, none) := by
  rw [startProcessing.eq_def, if_pos h]

/-- An idle state with an empty queue. -/
def sEmpty : AppState :=
  { files := [], isProcessing := false, progress := 0, summary := none }

/-- C10 witness: the empty idle state is returned untouched. -/
theorem c10_empty_noop_witness :
    startProcessing sEmpty cfgA 0 = (sEmpty, none) :=
  c10_empty_noop sEmpty cfgA 0 rfl

end Toolbox
